import Mathlib

/-!
Verification development for the flask exam-solver backend (`app.py`).

The pipeline is shallowly embedded: Python strings become `String`/`List Char`,
the external generative-text service and the relational store become explicit
oracles/state, and each route handler becomes a pure function returning its
response together with a trace of its side effects (connection acquired/closed,
API calls made, inserts attempted, resulting store state).
-/

namespace FlaskBackend

/-- Python `str.strip()` whitespace class (ASCII part of `str.isspace`). -/
def pyIsSpace (c : Char) : Bool :=
  c = ' ' || c = '\t' || c = '\n' || c = '\r' || c = '\x0b' || c = '\x0c'

/-- Python `s.strip()` on a character list: drop whitespace from both ends. -/
def pyStrip (l : List Char) : List Char :=
  (l.dropWhile pyIsSpace).rdropWhile pyIsSpace

/-- Python `s.strip()` on a `String`. -/
def pyStripS (s : String) : String :=
  ⟨pyStrip s.data⟩

/-- Python `s.split('\n')`: split a character list at every newline.
`splitNl l` is never empty, and splitting the empty string gives `[[]]`,
exactly as in Python. -/
def splitNl : List Char → List (List Char)
  | [] => [[]]
  | c :: t =>
    let r := splitNl t
    if c = '\n' then [] :: r else (c :: r.headI) :: r.tail

/-- One segment of the comprehension
`[q.strip() for q in ... if q.strip()]`: strip the segment and drop it when
the result is empty (Python falsy). -/
def stripSeg (q : List Char) : Option (List Char) :=
  let t := pyStrip q
  if t = [] then none else some t

/-- The question splitter of `generate_solution` (app.py line 129):
`[q.strip() for q in raw_text.strip().split('\n') if q.strip()]`. -/
def splitQuestions (s : List Char) : List (List Char) :=
  (splitNl (pyStrip s)).filterMap stripSeg

/-- Modelled from the spec wording of the Question Splitter: the trimmed
non-blank lines of the input, in their original relative order (no outer
strip of the whole block first). -/
def specQuestions (s : List Char) : List (List Char) :=
  (splitNl s).filterMap stripSeg

/-- String-level question splitter used by the batch pipeline. -/
def splitQuestionsS (s : String) : List String :=
  (splitQuestions s.data).map fun l => ⟨l⟩

/-- Rewrite the last element of a list of segments. -/
def modLast (f : List Char → List Char) : List (List Char) → List (List Char)
  | [] => []
  | [x] => [f x]
  | x :: y :: ys => x :: modLast f (y :: ys)

/-! ### Text extractor (`extract_text`, app.py lines 93-118) -/

/-- Python `s.lower()` (ASCII case folding). -/
def lowerStr (s : String) : String :=
  ⟨s.data.map Char.toLower⟩

/-- Python `s.endswith(t)` as a character-list suffix test. -/
def endsWithStr (s t : String) : Bool :=
  t.data.isSuffixOf s.data

inductive ExtractOutcome
  | noFile
  | ok (text : String)
  | err (message : String)
deriving DecidableEq

/-- Route `extract_text`: dispatch on the lowercased filename; the PDF branch
concatenates the page texts in page order and strips the result; the image
branch strips the recognized text. The PDF parser and the OCR engine are
external capabilities, passed as `Except` oracles (`.error` = the library
raised). -/
def extract_text (filePresent : Bool) (filename : Option String)
    (pdfPages : Except String (List String)) (ocr : Except String String) :
    ExtractOutcome :=
  if !filePresent then .noFile
  else
    let name := lowerStr (filename.getD "")
    if endsWithStr name ".pdf" then
      match pdfPages with
      | .error e => .err e
      | .ok pages => .ok (pyStripS (pages.foldl (· ++ ·) ""))
    else
      match ocr with
      | .error e => .err e
      | .ok t => .ok (pyStripS t)

/-! ### The relational store (`extracted_data` table) -/

structure Record where
  id : Nat
  question : String
  solution : Option String
  hint : String
deriving DecidableEq

structure DB where
  nextId : Nat
  rows : List Record
deriving DecidableEq

/-- Ids strictly ascending along the row list. -/
def idsAscending : List Record → Bool
  | [] => true
  | [_] => true
  | x :: y :: xs => (decide (x.id < y.id)) && idsAscending (y :: xs)

/-- Store well-formedness: rows in ascending id order, all ids below the
auto-increment counter. -/
def DB.wf (db : DB) : Bool :=
  idsAscending db.rows && db.rows.all fun r => decide (r.id < db.nextId)

/-- Query clause `ORDER BY id ASC`: insertion sort of the rows by id. -/
def insertById (r : Record) : List Record → List Record
  | [] => [r]
  | x :: xs => if r.id ≤ x.id then r :: x :: xs else x :: insertById r xs

def sortById (l : List Record) : List Record :=
  l.foldr insertById []

/-- Route `get_solutions` (app.py lines 221-232): `SELECT id, question, solution,
hint FROM extracted_data ORDER BY id ASC`. -/
def get_solutions (db : DB) : List Record :=
  sortById db.rows

/-! ### Generator client and batch pipeline (`generate_solution`,
app.py lines 121-193) -/

/-- One call to the generative-text endpoint, as seen by the client:
either `requests.post`/`raise_for_status` raises (transport failure or
non-success HTTP status), or a success body arrives, of which we keep
whether the expected shape `candidates[0].content.parts[0].text` is present
(`shape`) and the full serialized body (`serialized`). -/
inductive ApiOutcome
  | fail (cause : String)
  | success (shape : Option String) (serialized : String)
deriving DecidableEq

def ApiOutcome.isFail : ApiOutcome → Bool
  | .fail _ => true
  | .success _ _ => false

/-- Environment oracle: `api k` is the outcome of the k-th external call
(two calls per question, solution then hint); `insert i` is `none` when the
i-th `cursor.execute` insert succeeds and `some msg` when it raises. -/
structure Oracle where
  api : Nat → ApiOutcome
  insert : Nat → Option String

/-- Lines 154-168: take the first candidate's first text part, stripped;
on any shape mismatch fall back to the full serialized body (`str(json)`). -/
def extractGenText (shape : Option String) (serialized : String) : String :=
  match shape with
  | some t => pyStripS t
  | none => serialized

structure GenItem where
  question : String
  solution : String
  hint : String
deriving DecidableEq

inductive LoopErr
  | gen (cause : String)
  | ins (message : String)
deriving DecidableEq

/-- The per-question loop (lines 136-180): for each question make the
solution call, the hint call, then stage the insert inside the open
transaction and append to the result accumulator. The first raised
exception aborts the loop. Returns the outcome together with the absolute
API-call and insert counters. -/
def runBatch (o : Oracle) : List String → Nat → Nat →
    List (String × String × String) → List GenItem →
    (Except LoopErr (List (String × String × String) × List GenItem)) × Nat × Nat
  | [], ci, ii, staged, items => (.ok (staged, items), ci, ii)
  | q :: qs, ci, ii, staged, items =>
    match o.api ci with
    | .fail c => (.error (.gen c), ci + 1, ii)
    | .success sh ser =>
      let sol := extractGenText sh ser
      match o.api (ci + 1) with
      | .fail c => (.error (.gen c), ci + 2, ii)
      | .success sh2 ser2 =>
        let hint := extractGenText sh2 ser2
        match o.insert ii with
        | some m => (.error (.ins m), ci + 2, ii + 1)
        | none =>
          runBatch o qs (ci + 2) (ii + 1)
            (staged ++ [(q, sol, hint)])
            (items ++ [{ question := q, solution := sol, hint := hint }])

/-- Commit, `conn.commit()`: the staged inserts of the transaction become durable,
each receiving the next auto-increment id. -/
def commitStaged (db : DB) (staged : List (String × String × String)) : DB :=
  staged.foldl
    (fun d r =>
      { nextId := d.nextId + 1,
        rows := d.rows ++ [{ id := d.nextId, question := r.1,
                             solution := some r.2.1, hint := r.2.2 }] })
    db

inductive Resp
  | inputError
  | genError (details : String)
  | dbError (message : String)
  | success (data : List GenItem)
deriving DecidableEq

def Resp.isSuccess : Resp → Bool
  | .success _ => true
  | _ => false

/-- The `data` payload carried by a response: only the success response
carries any. -/
def respData : Resp → Option (List GenItem)
  | .success d => some d
  | _ => none

/-- Side-effect trace of one `generate_solution` request. `db` is the
persisted store after the request: staged inserts become visible only
through `commit`, so an uncommitted transaction leaves `db` unchanged
(rollback on connection teardown). -/
structure RunResult where
  resp : Resp
  connAcquired : Bool
  connClosed : Bool
  committed : Bool
  apiCalls : Nat
  insertAttempts : Nat
  db : DB
deriving DecidableEq

/-- Route `generate_solution` (app.py lines 121-193). Validation happens before
the connection is acquired; the connection is closed (line 184) only on the
success path — the two `except` branches return the error response without
closing. -/
def generate_solution (text : String) (o : Oracle) (db : DB) : RunResult :=
  if text.data.isEmpty || (pyStrip text.data).isEmpty then
    { resp := .inputError, connAcquired := false, connClosed := false,
      committed := false, apiCalls := 0, insertAttempts := 0, db := db }
  else
    let questions := splitQuestionsS text
    match runBatch o questions 0 0 [] [] with
    | (.ok (staged, items), ci, ii) =>
      { resp := .success items, connAcquired := true, connClosed := true,
        committed := true, apiCalls := ci, insertAttempts := ii,
        db := commitStaged db staged }
    | (.error (.gen c), ci, ii) =>
      { resp := .genError c, connAcquired := true, connClosed := false,
        committed := false, apiCalls := ci, insertAttempts := ii, db := db }
    | (.error (.ins m), ci, ii) =>
      { resp := .dbError m, connAcquired := true, connClosed := false,
        committed := false, apiCalls := ci, insertAttempts := ii, db := db }

/-! ### Direct save (`save_data`, app.py lines 196-218) -/

structure SaveReq where
  question : Option String
  solution : Option String
  hint : Option String
deriving DecidableEq

inductive SaveResp
  | validationError
  | dbError (message : String)
  | success
deriving DecidableEq

def SaveResp.isSuccess : SaveResp → Bool
  | .success => true
  | _ => false

structure SaveResult where
  resp : SaveResp
  connAcquired : Bool
  connClosed : Bool
  insertAttempted : Bool
  db : DB
deriving DecidableEq

/-- Python truthiness of `data.get('question')`: `None` and `""` are falsy,
every other string is truthy. -/
def truthyStr : Option String → Bool
  | none => false
  | some s => !s.data.isEmpty

/-- Route `save_data`: reject when `not question`; otherwise insert
`(question, solution, hint)` — `solution` may be NULL (absent key), `hint`
defaults to `''` — and commit immediately. The connection is closed only on
the success path. -/
def save_data (req : SaveReq) (insertOutcome : Option String) (db : DB) :
    SaveResult :=
  if !truthyStr req.question then
    { resp := .validationError, connAcquired := false, connClosed := false,
      insertAttempted := false, db := db }
  else
    match insertOutcome with
    | some m =>
      { resp := .dbError m, connAcquired := true, connClosed := false,
        insertAttempted := true, db := db }
    | none =>
      { resp := .success, connAcquired := true, connClosed := true,
        insertAttempted := true,
        db := { nextId := db.nextId + 1,
                rows := db.rows ++
                  [{ id := db.nextId, question := req.question.getD "",
                     solution := req.solution, hint := req.hint.getD "" }] } }

/-! ### Concrete fixtures used to instantiate the theorems -/

/-- An environment whose k-th external call raises and all others return a
well-formed body; every insert succeeds. -/
def oracleFailAt (k : Nat) : Oracle :=
  { api := fun i => if i = k then .fail "boom" else .success (some "ok") "raw",
    insert := fun _ => none }

/-- An environment whose calls all return HTTP success with a body that does
not match the expected shape; every insert succeeds. -/
def oracleAllOk : Oracle :=
  { api := fun _ => .success none "rawbody", insert := fun _ => none }

/-- A fresh store. -/
def emptyDB : DB := { nextId := 1, rows := [] }

/-! ### Lemmas: splitter/strip commutation (claim C3 machinery) -/

lemma splitNl_ne_nil (l : List Char) : splitNl l ≠ [] := by
  cases l with
  | nil => simp [splitNl]
  | cons c t =>
    simp only [splitNl]
    split <;> simp

lemma stripSeg_congr {a b : List Char} (h : pyStrip a = pyStrip b) :
    stripSeg a = stripSeg b := by
  simp only [stripSeg, h]

lemma pyStrip_cons_ws {c : Char} (h : pyIsSpace c = true) (q : List Char) :
    pyStrip (c :: q) = pyStrip q := by
  simp only [pyStrip, List.dropWhile_cons_of_pos h]

lemma pyStrip_concat_ws {c : Char} (h : pyIsSpace c = true) (q : List Char) :
    pyStrip (q ++ [c]) = pyStrip q := by
  simp only [pyStrip, List.dropWhile_append]
  by_cases hq : (q.dropWhile pyIsSpace).isEmpty
  · simp [hq, List.dropWhile_cons_of_pos h, List.isEmpty_iff.mp hq,
      List.rdropWhile_nil]
  · rw [if_neg hq]
    exact List.rdropWhile_concat_pos pyIsSpace _ c h

lemma filterMap_splitNl_cons_ws {c : Char} (h : pyIsSpace c = true)
    (t : List Char) :
    (splitNl (c :: t)).filterMap stripSeg = (splitNl t).filterMap stripSeg := by
  by_cases hc : c = '\n'
  · subst hc
    simp [splitNl, List.filterMap_cons, stripSeg, pyStrip, List.rdropWhile_nil]
  · obtain ⟨h₀, rs, hr⟩ := List.exists_cons_of_ne_nil (splitNl_ne_nil t)
    simp only [splitNl, hr, if_neg hc, List.headI_cons, List.tail_cons,
      List.filterMap_cons]
    rw [stripSeg_congr (pyStrip_cons_ws h h₀)]

lemma filterMap_splitNl_dropWhile (t : List Char) :
    (splitNl (t.dropWhile pyIsSpace)).filterMap stripSeg
      = (splitNl t).filterMap stripSeg := by
  induction t with
  | nil => rfl
  | cons c t ih =>
    by_cases hp : pyIsSpace c
    · rw [List.dropWhile_cons_of_pos hp, ih, filterMap_splitNl_cons_ws hp]
    · rw [List.dropWhile_cons_of_neg hp]

lemma modLast_cons (f : List Char → List Char) (x : List Char)
    {l : List (List Char)} (h : l ≠ []) :
    modLast f (x :: l) = x :: modLast f l := by
  obtain ⟨y, ys, rfl⟩ := List.exists_cons_of_ne_nil h
  rfl

lemma splitNl_concat (c : Char) (u : List Char) :
    splitNl (u ++ [c]) =
      if c = '\n' then splitNl u ++ [[]]
      else modLast (· ++ [c]) (splitNl u) := by
  induction u with
  | nil =>
    by_cases hc : c = '\n' <;> simp [splitNl, hc, modLast]
  | cons d v ih =>
    by_cases hc : c = '\n'
    · subst hc
      by_cases hd : d = '\n'
      · subst hd
        simp [List.cons_append, splitNl, ih]
      · obtain ⟨h₀, rs, hr⟩ := List.exists_cons_of_ne_nil (splitNl_ne_nil v)
        simp [List.cons_append, splitNl, ih, hd, hr]
    · by_cases hd : d = '\n'
      · subst hd
        have hm := modLast_cons (· ++ [c]) [] (splitNl_ne_nil v)
        simp [List.cons_append, splitNl, ih, hc, hm]
      · obtain ⟨h₀, rs, hr⟩ := List.exists_cons_of_ne_nil (splitNl_ne_nil v)
        cases rs with
        | nil => simp [List.cons_append, splitNl, ih, hc, hd, hr, modLast]
        | cons r' rs' =>
          simp [List.cons_append, splitNl, ih, hc, hd, hr, modLast]

lemma filterMap_modLast_ws {c : Char} (h : pyIsSpace c = true) :
    ∀ L : List (List Char),
      (modLast (· ++ [c]) L).filterMap stripSeg = L.filterMap stripSeg := by
  intro L
  induction L with
  | nil => rfl
  | cons x xs ih =>
    cases xs with
    | nil =>
      simp only [modLast, List.filterMap_cons]
      rw [stripSeg_congr (pyStrip_concat_ws h x)]
    | cons y ys =>
      rw [modLast_cons _ _ (List.cons_ne_nil y ys), List.filterMap_cons,
        List.filterMap_cons, ih]

lemma filterMap_splitNl_concat_ws {c : Char} (h : pyIsSpace c = true)
    (u : List Char) :
    (splitNl (u ++ [c])).filterMap stripSeg
      = (splitNl u).filterMap stripSeg := by
  rw [splitNl_concat]
  by_cases hc : c = '\n'
  · rw [if_pos hc, List.filterMap_append]
    simp [stripSeg, pyStrip, List.rdropWhile_nil]
  · rw [if_neg hc, filterMap_modLast_ws h]

lemma filterMap_splitNl_revDropWhile :
    ∀ r : List Char,
      (splitNl (r.dropWhile pyIsSpace).reverse).filterMap stripSeg
        = (splitNl r.reverse).filterMap stripSeg := by
  intro r
  induction r with
  | nil => rfl
  | cons c t ih =>
    by_cases hp : pyIsSpace c
    · rw [List.dropWhile_cons_of_pos hp, ih, List.reverse_cons,
        filterMap_splitNl_concat_ws hp]
    · rw [List.dropWhile_cons_of_neg hp]

lemma filterMap_splitNl_rdropWhile (t : List Char) :
    (splitNl (t.rdropWhile pyIsSpace)).filterMap stripSeg
      = (splitNl t).filterMap stripSeg := by
  have := filterMap_splitNl_revDropWhile t.reverse
  rwa [List.reverse_reverse] at this

/-- The source splitter (outer `strip()` before splitting) agrees with the
spec's description (trimmed non-blank lines of the raw block). -/
theorem splitQuestions_eq_spec (s : List Char) :
    splitQuestions s = specQuestions s := by
  unfold splitQuestions specQuestions pyStrip
  rw [filterMap_splitNl_rdropWhile, filterMap_splitNl_dropWhile]

/-! ### Lemmas: exit-path structure of the two write routes -/

lemma generate_solution_connClosed_eq (text : String) (o : Oracle) (db : DB) :
    (generate_solution text o db).connClosed
      = (generate_solution text o db).resp.isSuccess := by
  unfold generate_solution
  dsimp only
  split
  · rfl
  · split <;> rfl

lemma save_data_connClosed_eq (req : SaveReq) (io : Option String) (db : DB) :
    (save_data req io db).connClosed = (save_data req io db).resp.isSuccess := by
  unfold save_data
  split
  · rfl
  · split <;> rfl

/-! ### Lemmas: the sorted store -/

lemma idsAscending_tail {x : Record} {xs : List Record}
    (h : idsAscending (x :: xs) = true) : idsAscending xs = true := by
  cases xs with
  | nil => rfl
  | cons y ys =>
    simp only [idsAscending, Bool.and_eq_true] at h
    exact h.2

lemma idsAscending_head {x y : Record} {ys : List Record}
    (h : idsAscending (x :: y :: ys) = true) : x.id < y.id := by
  simp only [idsAscending, Bool.and_eq_true, decide_eq_true_eq] at h
  exact h.1

lemma sortById_sorted (l : List Record) (h : idsAscending l = true) :
    sortById l = l := by
  induction l with
  | nil => rfl
  | cons x xs ih =>
    have hx : sortById (x :: xs) = insertById x (sortById xs) := rfl
    rw [hx, ih (idsAscending_tail h)]
    cases xs with
    | nil => rfl
    | cons y ys =>
      have := idsAscending_head h
      simp [insertById, Nat.le_of_lt this]

lemma idsAscending_append_singleton (r : Record) :
    ∀ l : List Record, idsAscending l = true →
      (∀ x ∈ l, x.id < r.id) → idsAscending (l ++ [r]) = true := by
  intro l
  induction l with
  | nil => intro _ _; rfl
  | cons x xs ih =>
    intro h hall
    cases xs with
    | nil =>
      simp [idsAscending, hall x (by simp)]
    | cons y ys =>
      have h2 := ih (idsAscending_tail h) fun z hz => hall z (by simp [hz])
      simp only [List.cons_append, idsAscending, Bool.and_eq_true,
        decide_eq_true_eq] at h2 ⊢
      exact ⟨idsAscending_head h, h2⟩

/-! ### Lemmas: the per-question loop -/

lemma ApiOutcome.eq_success_of_not_isFail {a : ApiOutcome}
    (h : a.isFail = false) : ∃ sh ser, a = .success sh ser := by
  cases a with
  | fail c => simp [ApiOutcome.isFail] at h
  | success sh ser => exact ⟨sh, ser, rfl⟩

lemma runBatch_all_ok (o : Oracle)
    (hapi : ∀ k, (o.api k).isFail = false)
    (hins : ∀ i, o.insert i = none) :
    ∀ (qs : List String) (ci ii : Nat) (staged : List (String × String × String))
      (items : List GenItem),
      ∃ st it, runBatch o qs ci ii staged items
        = (.ok (st, it), ci + 2 * qs.length, ii + qs.length) := by
  intro qs
  induction qs with
  | nil => intro ci ii staged items; exact ⟨staged, items, by simp [runBatch]⟩
  | cons q qs ih =>
    intro ci ii staged items
    obtain ⟨sh, ser, h1⟩ := ApiOutcome.eq_success_of_not_isFail (hapi ci)
    obtain ⟨sh2, ser2, h2⟩ := ApiOutcome.eq_success_of_not_isFail (hapi (ci + 1))
    obtain ⟨st, it, hrec⟩ := ih (ci + 2) (ii + 1)
      (staged ++ [(q, extractGenText sh ser, extractGenText sh2 ser2)])
      (items ++ [{ question := q, solution := extractGenText sh ser,
                   hint := extractGenText sh2 ser2 }])
    refine ⟨st, it, ?_⟩
    rw [runBatch, h1]
    dsimp only
    rw [h2]
    dsimp only
    rw [hins ii]
    rw [hrec]
    have h3 : ci + 2 + 2 * qs.length = ci + 2 * (q :: qs).length := by
      simp [List.length_cons]; omega
    have h4 : ii + 1 + qs.length = ii + (q :: qs).length := by
      simp [List.length_cons]; omega
    rw [h3, h4]

lemma runBatch_gen_fail (o : Oracle) (c : String) :
    ∀ (qs : List String) (ci ii : Nat)
      (staged : List (String × String × String)) (items : List GenItem)
      (k : Nat),
      ci ≤ k → k < ci + 2 * qs.length →
      o.api k = .fail c →
      (∀ j, ci ≤ j → j < k → (o.api j).isFail = false) →
      (∀ j, ii ≤ j → ci + 2 * (j - ii) + 1 < k → o.insert j = none) →
      runBatch o qs ci ii staged items
        = (.error (.gen c), k + 1, ii + (k - ci) / 2) := by
  intro qs
  induction qs with
  | nil =>
    intro ci ii staged items k h1 h2 _ _ _
    simp only [List.length_nil, Nat.mul_zero, Nat.add_zero] at h2
    omega
  | cons q qs ih =>
    intro ci ii staged items k h1 h2 hfail hpre hins
    by_cases hk0 : k = ci
    · subst hk0
      rw [runBatch, hfail]
      have : (k - k) / 2 = 0 := by omega
      rw [this]
      rfl
    · by_cases hk1 : k = ci + 1
      · obtain ⟨sh, ser, hs1⟩ :=
          ApiOutcome.eq_success_of_not_isFail (hpre ci (Nat.le_refl ci) (by omega))
        subst hk1
        rw [runBatch, hs1]
        dsimp only
        rw [hfail]
        have : (ci + 1 - ci) / 2 = 0 := by omega
        rw [this]
        rfl
      · have hk2 : ci + 2 ≤ k := by omega
        obtain ⟨sh, ser, hs1⟩ :=
          ApiOutcome.eq_success_of_not_isFail (hpre ci (Nat.le_refl ci) (by omega))
        obtain ⟨sh2, ser2, hs2⟩ :=
          ApiOutcome.eq_success_of_not_isFail (hpre (ci + 1) (by omega) (by omega))
        have hins0 : o.insert ii = none := hins ii (Nat.le_refl ii) (by omega)
        rw [runBatch, hs1]
        dsimp only
        rw [hs2]
        dsimp only
        rw [hins0]
        rw [ih (ci + 2) (ii + 1) _ _ k hk2 (by simp [List.length_cons] at h2; omega)
          hfail (fun j hj hjk => hpre j (by omega) hjk)
          (fun j hj hjk => hins j (by omega) (by omega))]
        have : ii + 1 + (k - (ci + 2)) / 2 = ii + (k - ci) / 2 := by omega
        rw [this]

/-! ### Claim theorems -/

/-- C1: if the batch pipeline reports a generation or an insert failure,
the transaction is never committed, the persisted store is exactly what it
was before the request (zero records from the batch persist, even for
questions that succeeded earlier), and the error response carries no
partial data. -/
theorem batch_failure_is_atomic (text : String) (o : Oracle) (db : DB)
    (c : String)
    (h : (generate_solution text o db).resp = .genError c ∨
         (generate_solution text o db).resp = .dbError c) :
    (generate_solution text o db).committed = false ∧
      (generate_solution text o db).db = db ∧
      respData (generate_solution text o db).resp = none := by
  by_cases hval : (text.data.isEmpty || (pyStrip text.data).isEmpty) = true
  · simp [generate_solution, hval] at h
  · have hval' : (text.data.isEmpty || (pyStrip text.data).isEmpty) = false :=
      Bool.eq_false_iff.mpr hval
    rcases hrb : runBatch o (splitQuestionsS text) 0 0 [] [] with ⟨res, ci, ii⟩
    cases res with
    | ok p =>
      rcases p with ⟨staged, items⟩
      simp [generate_solution, hval', hrb] at h
    | error e =>
      cases e with
      | gen m => simp [generate_solution, hval', hrb, respData]
      | ins m => simp [generate_solution, hval', hrb, respData]

/-- C1 witness: a 3-question batch whose 2nd question's generation call
fails persists nothing and answers with an error carrying no data. -/
theorem batch_failure_is_atomic_witness :
    (generate_solution "Q1\nQ2\nQ3" (oracleFailAt 2) emptyDB).committed = false ∧
      (generate_solution "Q1\nQ2\nQ3" (oracleFailAt 2) emptyDB).db = emptyDB ∧
      respData (generate_solution "Q1\nQ2\nQ3" (oracleFailAt 2) emptyDB).resp
        = none :=
  batch_failure_is_atomic "Q1\nQ2\nQ3" (oracleFailAt 2) emptyDB "boom"
    (Or.inl (by decide))

/-- C2 counterexample: a batch whose single generation call fails acquires
the store connection and returns without closing it — the claim that every
exit path releases the connection is false on this code. -/
theorem conn_not_closed_on_failure_cex :
    (generate_solution "Q" (oracleFailAt 0) emptyDB).connAcquired = true ∧
      (generate_solution "Q" (oracleFailAt 0) emptyDB).connClosed = false := by
  decide

/-- C2 (amended): in both the batch pipeline and the direct save, the
connection is closed exactly on the success exit path; on a generation or
insert failure the error response is returned without an explicit release. -/
theorem conn_closed_iff_success :
    (∀ (text : String) (o : Oracle) (db : DB),
      (generate_solution text o db).connClosed
        = (generate_solution text o db).resp.isSuccess) ∧
    ∀ (req : SaveReq) (io : Option String) (db : DB),
      (save_data req io db).connClosed = (save_data req io db).resp.isSuccess :=
  ⟨generate_solution_connClosed_eq, save_data_connClosed_eq⟩

/-- C3: the question splitter yields exactly the trimmed non-blank lines of
the input in their original relative order, and on `"Q1\n\nQ2\n  \nQ3"` it
yields exactly `["Q1", "Q2", "Q3"]`. -/
theorem splitter_yields_trimmed_nonblank_lines :
    (∀ s : List Char, splitQuestions s = specQuestions s) ∧
      splitQuestionsS "Q1\n\nQ2\n  \nQ3" = ["Q1", "Q2", "Q3"] :=
  ⟨splitQuestions_eq_spec, by decide⟩

/-- C4: a question text that is empty or whitespace-only is rejected with
the input error before any side effect: no connection is acquired, no
external call is made, no insert is attempted, the store is unchanged. -/
theorem empty_input_rejected_before_side_effects (text : String) (o : Oracle)
    (db : DB) (h : pyStrip text.data = []) :
    (generate_solution text o db).resp = .inputError ∧
      (generate_solution text o db).connAcquired = false ∧
      (generate_solution text o db).apiCalls = 0 ∧
      (generate_solution text o db).insertAttempts = 0 ∧
      (generate_solution text o db).db = db := by
  simp [generate_solution, h]

/-- C4 witness: whitespace-only input is rejected without side effects. -/
theorem empty_input_rejected_before_side_effects_witness :
    (generate_solution "  \n " oracleAllOk emptyDB).resp = .inputError ∧
      (generate_solution "  \n " oracleAllOk emptyDB).connAcquired = false ∧
      (generate_solution "  \n " oracleAllOk emptyDB).apiCalls = 0 ∧
      (generate_solution "  \n " oracleAllOk emptyDB).insertAttempts = 0 ∧
      (generate_solution "  \n " oracleAllOk emptyDB).db = emptyDB :=
  empty_input_rejected_before_side_effects "  \n " oracleAllOk emptyDB
    (by decide)

/-- C5: when the lowercased filename ends in `.pdf`, extraction returns the
page texts concatenated in page order and stripped. -/
theorem pdf_extraction_concat_trimmed (filename : Option String)
    (pages : List String) (ocr : Except String String)
    (h : endsWithStr (lowerStr (filename.getD "")) ".pdf" = true) :
    extract_text true filename (.ok pages) ocr
      = .ok (pyStripS (pages.foldl (· ++ ·) "")) := by
  simp [extract_text, h]

/-- C5 witness: a 2-page document `["A", "B"]` under a case-insensitively
matching filename extracts to `"AB"`. -/
theorem pdf_extraction_concat_trimmed_witness :
    endsWithStr (lowerStr ((some "exam.PDF").getD "")) ".pdf" = true ∧
      extract_text true (some "exam.PDF") (.ok ["A", "B"]) (.ok "") = .ok "AB" :=
  ⟨by decide,
    (pdf_extraction_concat_trimmed (some "exam.PDF") ["A", "B"] (.ok "")
      (by decide)).trans (by decide)⟩

/-- C6: a shape mismatch in an HTTP-successful body is never fatal — the
client falls back to the full serialized body as the text, and a batch all
of whose calls return HTTP success (of any shape) with working inserts
always produces the success response. -/
theorem shape_mismatch_degrades_gracefully :
    (∀ serialized : String, extractGenText none serialized = serialized) ∧
    ∀ (text : String) (o : Oracle) (db : DB),
      (text.data.isEmpty || (pyStrip text.data).isEmpty) = false →
      (∀ k, (o.api k).isFail = false) →
      (∀ i, o.insert i = none) →
      (generate_solution text o db).resp.isSuccess = true := by
  constructor
  · intro serialized; rfl
  · intro text o db hval hapi hins
    obtain ⟨st, it, hrb⟩ :=
      runBatch_all_ok o hapi hins (splitQuestionsS text) 0 0 [] []
    simp [generate_solution, hval, hrb, Resp.isSuccess]

/-- C6 witness: a run whose calls all return shape-mismatching bodies still
succeeds, and the mismatching body is used verbatim. -/
theorem shape_mismatch_degrades_gracefully_witness :
    extractGenText none "rawbody" = "rawbody" ∧
      (generate_solution "Q" oracleAllOk emptyDB).resp.isSuccess = true :=
  ⟨shape_mismatch_degrades_gracefully.1 "rawbody",
    shape_mismatch_degrades_gracefully.2 "Q" oracleAllOk emptyDB (by decide)
      (fun _ => rfl) (fun _ => rfl)⟩

/-- C7: if the k-th external call of a valid batch raises (transport
failure or non-success status) and everything before it succeeded, the
request answers with the generation error carrying that cause, exactly
k+1 calls were made (the failing call was issued once and never retried),
and nothing is committed or persisted. -/
theorem api_failure_propagates_no_retry (text : String) (o : Oracle)
    (db : DB) (k : Nat) (c : String)
    (hval : (text.data.isEmpty || (pyStrip text.data).isEmpty) = false)
    (hk : k < 2 * (splitQuestionsS text).length)
    (hfail : o.api k = .fail c)
    (hpre : ∀ j, j < k → (o.api j).isFail = false)
    (hins : ∀ j, 2 * j + 1 < k → o.insert j = none) :
    (generate_solution text o db).resp = .genError c ∧
      (generate_solution text o db).apiCalls = k + 1 ∧
      (generate_solution text o db).committed = false ∧
      (generate_solution text o db).db = db := by
  have hrb := runBatch_gen_fail o c (splitQuestionsS text) 0 0 [] [] k
    (Nat.zero_le k) (by omega) hfail (fun j _ hj => hpre j hj)
    (fun j _ hj => hins j (by omega))
  simp [generate_solution, hval, hrb]

/-- C7 witness: the very first call failing yields the generation error
after exactly one call, with nothing persisted. -/
theorem api_failure_propagates_no_retry_witness :
    (generate_solution "Q" (oracleFailAt 0) emptyDB).resp = .genError "boom" ∧
      (generate_solution "Q" (oracleFailAt 0) emptyDB).apiCalls = 1 ∧
      (generate_solution "Q" (oracleFailAt 0) emptyDB).committed = false ∧
      (generate_solution "Q" (oracleFailAt 0) emptyDB).db = emptyDB :=
  api_failure_propagates_no_retry "Q" (oracleFailAt 0) emptyDB 0 "boom"
    (by decide) (by decide) rfl (fun j hj => absurd hj (Nat.not_lt_zero j))
    (fun j hj => absurd hj (by omega))

/-- C8 counterexample: the two validations are not identical — a
whitespace-only question is accepted and inserted by the direct save, yet
the same text is rejected up front by the batch path. -/
theorem save_validation_differs_cex :
    (save_data ⟨some " ", none, none⟩ none emptyDB).resp = SaveResp.success ∧
      (save_data ⟨some " ", none, none⟩ none emptyDB).insertAttempted = true ∧
      (generate_solution " " oracleAllOk emptyDB).resp = Resp.inputError := by
  decide

/-- C8 (amended): the direct save validates that the question is present
and non-empty before any insert — a missing or empty question is rejected
with an error status, nothing is attempted or persisted — but this
validation is weaker than the batch path's: whitespace-only question text
passes the direct save while the batch path rejects it. -/
theorem save_validation_rejects_missing_or_empty :
    (∀ (req : SaveReq) (io : Option String) (db : DB),
      req.question = none ∨ req.question = some "" →
      (save_data req io db).resp = .validationError ∧
        (save_data req io db).insertAttempted = false ∧
        (save_data req io db).connAcquired = false ∧
        (save_data req io db).db = db) ∧
    (∀ (io : Option String) (db : DB),
      (save_data ⟨some " ", none, none⟩ io db).resp ≠ .validationError) ∧
    ∀ (o : Oracle) (db : DB),
      (generate_solution " " o db).resp = .inputError := by
  refine ⟨?_, ?_, ?_⟩
  · intro req io db h
    rcases h with h | h <;> simp [save_data, truthyStr, h]
  · intro io db
    cases io <;> simp [save_data, truthyStr]
  · intro o db
    rfl

/-- C8 witness: a request with a missing question is rejected with the
validation error and nothing persisted. -/
theorem save_validation_rejects_missing_or_empty_witness :
    (save_data ⟨none, some "S", none⟩ none emptyDB).resp = .validationError ∧
      (save_data ⟨none, some "S", none⟩ none emptyDB).insertAttempted = false ∧
      (save_data ⟨none, some "S", none⟩ none emptyDB).connAcquired = false ∧
      (save_data ⟨none, some "S", none⟩ none emptyDB).db = emptyDB :=
  save_validation_rejects_missing_or_empty.1 ⟨none, some "S", none⟩ none
    emptyDB (Or.inl rfl)

/-- C9: on a well-formed store, a successful direct save followed by the
listing returns the old listing with exactly the saved record appended —
i.e. the saved record is the last element — and the listing stays in
ascending id (= insertion) order. -/
theorem save_then_list_roundtrip (db : DB) (req : SaveReq)
    (hwf : db.wf = true) (hq : truthyStr req.question = true) :
    get_solutions (save_data req none db).db
        = get_solutions db ++
          [⟨db.nextId, req.question.getD "", req.solution, req.hint.getD ""⟩] ∧
      (get_solutions (save_data req none db).db).getLast?
        = some ⟨db.nextId, req.question.getD "", req.solution,
            req.hint.getD ""⟩ ∧
      (save_data req none db).db.wf = true := by
  have hasc : idsAscending db.rows = true := by
    have := hwf
    simp only [DB.wf, Bool.and_eq_true] at this
    exact this.1
  have hall : ∀ x ∈ db.rows, x.id < db.nextId := by
    have := hwf
    simp only [DB.wf, Bool.and_eq_true, List.all_eq_true,
      decide_eq_true_eq] at this
    exact this.2
  have hdb : (save_data req none db).db
      = { nextId := db.nextId + 1,
          rows := db.rows ++
            [⟨db.nextId, req.question.getD "", req.solution,
              req.hint.getD ""⟩] } := by
    simp [save_data, hq]
  have hasc2 : idsAscending (db.rows ++
      [(⟨db.nextId, req.question.getD "", req.solution,
        req.hint.getD ""⟩ : Record)]) = true :=
    idsAscending_append_singleton _ db.rows hasc hall
  refine ⟨?_, ?_, ?_⟩
  · rw [hdb]
    show sortById _ = sortById db.rows ++ _
    rw [sortById_sorted _ hasc2, sortById_sorted _ hasc]
  · rw [hdb]
    show (sortById _).getLast? = _
    rw [sortById_sorted _ hasc2, List.getLast?_concat]
  · rw [hdb]
    simp only [DB.wf, Bool.and_eq_true, List.all_eq_true]
    refine ⟨hasc2, ?_⟩
    intro r hr
    rcases List.mem_append.mp hr with h | h
    · simp only [decide_eq_true_eq]
      exact Nat.lt_succ_of_lt (hall r h)
    · simp only [List.mem_singleton] at h
      subst h
      simp

/-- C9 witness: saving `{Q, S, H}` into a store with one existing row lists
both rows in id order with the new record last. -/
theorem save_then_list_roundtrip_witness :
    get_solutions (save_data ⟨some "Q", some "S", some "H"⟩ none
          ⟨2, [⟨1, "q0", none, "h0"⟩]⟩).db
        = get_solutions ⟨2, [⟨1, "q0", none, "h0"⟩]⟩ ++
            [⟨2, "Q", some "S", "H"⟩] ∧
      (get_solutions (save_data ⟨some "Q", some "S", some "H"⟩ none
          ⟨2, [⟨1, "q0", none, "h0"⟩]⟩).db).getLast?
        = some ⟨2, "Q", some "S", "H"⟩ ∧
      (save_data ⟨some "Q", some "S", some "H"⟩ none
          ⟨2, [⟨1, "q0", none, "h0"⟩]⟩).db.wf = true :=
  save_then_list_roundtrip ⟨2, [⟨1, "q0", none, "h0"⟩]⟩
    ⟨some "Q", some "S", some "H"⟩ (by decide) (by decide)

/-- C10: the direct save rejects with its validation error exactly when the
question is falsy — solution and hint never cause rejection — and a
successful save of a request with an absent solution inserts a NULL
solution while an absent hint is stored as the empty string. -/
theorem save_validates_only_question :
    (∀ (db : DB) (req : SaveReq) (io : Option String),
      ((save_data req io db).resp = SaveResp.validationError ↔
        truthyStr req.question = false)) ∧
    ∀ (db : DB) (q : String) (sol hintOpt : Option String),
      truthyStr (some q) = true →
      (save_data ⟨some q, sol, hintOpt⟩ none db).resp = SaveResp.success ∧
        (save_data ⟨some q, sol, hintOpt⟩ none db).db.rows
          = db.rows ++ [⟨db.nextId, q, sol, hintOpt.getD ""⟩] := by
  constructor
  · intro db req io
    by_cases hq : truthyStr req.question
    · cases io <;> simp [save_data, hq]
    · simp [save_data, Bool.eq_false_iff.mpr hq]
  · intro db q sol hintOpt h
    simp [save_data, h]

/-- C10 witness: a request carrying only the question is accepted; the inserted row has
a NULL solution and an empty hint. -/
theorem save_validates_only_question_witness :
    (save_data ⟨some "Q", none, none⟩ none emptyDB).resp = SaveResp.success ∧
      (save_data ⟨some "Q", none, none⟩ none emptyDB).db.rows
        = [⟨1, "Q", none, ""⟩] :=
  save_validates_only_question.2 emptyDB "Q" none none (by decide)

end FlaskBackend
